import Mathlib

/-!
Verification of the asynctnt connection/protocol engine specification.

The repository ships the package facade (`asynctnt/__init__.py`) and the ping
test suite (`tests/test_ping.py`); the engine itself (connection state machine,
frame codec, request multiplexer, schema cache) is described by the spec and
exercised by the tests.  Where the deciding code is absent, definitions below
are modelled from the spec (each such definition says so in its doc comment);
where `tests/test_ping.py` pins concrete behavior, the model follows the test.
-/

namespace Asynctnt

/-- Error taxonomy of the spec (§7): `TarantoolNotConnectedError`,
`asyncio.TimeoutError`, `ServerError`, `ProtocolError`, `UnknownSpaceError`,
`UnknownIndexError`, `ConnectionLostError`. -/
inductive ErrorKind where
  | notConnected
  | timeout
  | serverError
  | protocolError
  | unknownSpace
  | unknownIndex
  | connectionLost
deriving DecidableEq, Repr

/-- A decoded response as the tests observe it (`test__ping_basic` checks
`res.sync`, `res.code`, `res.body`): correlation id, status code, schema
version, and an optional body (absent for ping). -/
structure TntResponse where
  sync : Nat
  code : Nat
  schema_id : Nat
  body : Option (List Nat)
deriving DecidableEq, Repr

/-- Connection lifecycle states of the spec's state machine (§4.4). -/
inductive ConnState where
  | disconnected
  | connecting
  | handshaking
  | connected
  | reconnecting
  | closing
  | closed
deriving DecidableEq, Repr

/-- The spec's stated timeout policy (§4.3), written from the spec's words for
comparison: effective deadline = min(explicit per-call timeout if given,
connection default timeout if configured, infinite otherwise).  `none` is the
infinite deadline. -/
def effective_timeout_spec (explicit dflt : Option ℚ) : Option ℚ :=
  match explicit, dflt with
  | some t, some d => some (min t d)
  | some t, none => some t
  | none, some d => some d
  | none, none => none

/-- Modelled from the spec and pinned by `test__ping_timeout_on_conn`
(the connection implementation is absent from the sources): the effective
per-request timeout is the explicit per-call timeout when given, else the
connection default, else infinite.  The test requires `ping(timeout=1)` to
succeed on a connection whose default request timeout is near zero, so the
explicit value overrides (is not min-ed with) the default. -/
def effective_timeout (explicit dflt : Option ℚ) : Option ℚ :=
  match explicit with
  | some t => some t
  | none => dflt

/-- Whether a request with the given effective timeout expires before the
server's answer arrives after `rt` seconds.  An infinite deadline never
expires. -/
def times_out (eff : Option ℚ) (rt : ℚ) : Bool :=
  match eff with
  | some t => decide (t < rt)
  | none => false

/-- Environment of one ping call: connection state, configured default request
timeout, how long the server takes to answer, and the multiplexer's last
allocated correlation id. -/
structure PingEnv where
  state : ConnState
  request_timeout : Option ℚ
  response_time : ℚ
  last_sync : Nat
deriving DecidableEq, Repr

/-- Modelled from the spec (§4.5, §6, §7) and the ping tests (the connection
implementation is absent from the sources): `ping(timeout?)`.  A call issued
while no usable connection exists fails with `TarantoolNotConnectedError`
(`test__ping_connection_lost`); a call whose effective deadline elapses before
the response fails with `asyncio.TimeoutError` (`test__ping_timeout`);
otherwise it returns a response with a freshly allocated nonzero correlation
id, ok code 0 and no body (`test__ping_basic`). -/
def ping (env : PingEnv) (timeout : Option ℚ) : Except ErrorKind TntResponse :=
  if env.state ≠ ConnState.connected then
    Except.error ErrorKind.notConnected
  else if times_out (effective_timeout timeout env.request_timeout) env.response_time then
    Except.error ErrorKind.timeout
  else
    Except.ok ⟨env.last_sync + 1, 0, 0, none⟩

/-! ### Frame Codec (spec §4.1)

Modelled from the spec: the codec implementation is absent from the sources.
A frame is a fixed-width length prefix computed over header plus body,
followed by the fixed-field header (correlation id, command/status code,
schema version, fixed-width integers) and the opaque body. -/

/-- Little-endian fixed-width byte encoding of `n` on `w` bytes. -/
def encode_le : Nat → Nat → List Nat
  | 0, _ => []
  | w + 1, n => n % 256 :: encode_le w (n / 256)

/-- Little-endian byte decoding. -/
def decode_le : List Nat → Nat
  | [] => 0
  | b :: rest => b + 256 * decode_le rest

/-- Wire header: correlation id (`sync`), command/status code, schema version. -/
structure Header where
  sync : Nat
  code : Nat
  schema_id : Nat
deriving DecidableEq, Repr

/-- Header fields are simple fixed-width (64-bit) integers. -/
def Header.valid (h : Header) : Prop :=
  h.sync < 2 ^ 64 ∧ h.code < 2 ^ 64 ∧ h.schema_id < 2 ^ 64

instance (h : Header) : Decidable h.valid := by
  unfold Header.valid; infer_instance

/-- Encoded size of the fixed-field header: three 8-byte integers. -/
def HEADER_SIZE : Nat := 24

/-- Modelled from the spec: the configured maximum declared frame length that
`decode` accepts before failing with `ProtocolError`. -/
def MAX_FRAME_LENGTH : Nat := 2 ^ 24

/-- Modelled from the spec: serialize the fixed-field header. -/
def encodeHeader (h : Header) : List Nat :=
  encode_le 8 h.sync ++ encode_le 8 h.code ++ encode_le 8 h.schema_id

/-- Modelled from the spec: `encode(header, body)` produces a self-delimiting
frame whose length prefix is computed over header+body; an empty body (ping)
contributes no bytes. -/
def encode (h : Header) (body : List Nat) : List Nat :=
  encode_le 4 (HEADER_SIZE + body.length) ++ encodeHeader h ++ body

/-- Outcome of `decode`: a "need more data" signal (distinct from an error),
a `ProtocolError`, or the decoded header, body and consumed byte count. -/
inductive DecodeResult where
  | needMoreData
  | protocolError
  | ok (h : Header) (body : List Nat) (consumed : Nat)
deriving DecidableEq, Repr

/-- Modelled from the spec: `decode(buffer)` fails with `ProtocolError` if the
declared length exceeds the configured maximum or is too short to hold the
fixed-field header, signals "need more data" when the buffer is shorter than
the declared frame, and otherwise returns the header, the body bytes and the
number of bytes consumed. -/
def decode (buf : List Nat) : DecodeResult :=
  if buf.length < 4 then DecodeResult.needMoreData
  else
    let len := decode_le (buf.take 4)
    if MAX_FRAME_LENGTH < len then DecodeResult.protocolError
    else if len < HEADER_SIZE then DecodeResult.protocolError
    else if buf.length < 4 + len then DecodeResult.needMoreData
    else
      let hd := (buf.drop 4).take HEADER_SIZE
      DecodeResult.ok
        ⟨decode_le (hd.take 8), decode_le ((hd.drop 8).take 8), decode_le (hd.drop 16)⟩
        ((buf.drop (4 + HEADER_SIZE)).take (len - HEADER_SIZE))
        (4 + len)

/-! ### Request Multiplexer (spec §4.3)

Modelled from the spec: the multiplexer implementation is absent from the
sources.  It owns the table of in-flight correlation ids and allocates ids
with a monotonically increasing counter (the spec mandates this allocator;
its "large bound" wrap point is beyond any reachable counter value, so the
counter is modelled as an unbounded natural). -/

/-- Multiplexer state: the last allocated correlation id and the ids of the
currently pending (in-flight) requests, each with its absolute deadline. -/
structure MuxState where
  counter : Nat
  pending : List (Nat × ℚ)
deriving DecidableEq, Repr

/-- Modelled from the spec: `register()` allocates a correlation id unused by
any currently-pending request and records the new waiter with its deadline. -/
def register (s : MuxState) (deadline : ℚ) : Nat × MuxState :=
  (s.counter + 1, ⟨s.counter + 1, (s.counter + 1, deadline) :: s.pending⟩)

/-- Modelled from the spec: `resolve(correlationId, response)` removes the
waiter; a response for an id nobody is waiting for is dropped, never fatal. -/
def resolve (s : MuxState) (sync : Nat) : MuxState :=
  ⟨s.counter, s.pending.filter (fun p => p.1 ≠ sync)⟩

/-- Modelled from the spec: `cancel(correlationId)` removes the waiter
locally. -/
def cancel (s : MuxState) (sync : Nat) : MuxState :=
  ⟨s.counter, s.pending.filter (fun p => p.1 ≠ sync)⟩

/-- Modelled from the spec: `expire(now)` removes every waiter whose deadline
has passed (resolving it with a timeout failure). -/
def expire (s : MuxState) (now : ℚ) : MuxState :=
  ⟨s.counter, s.pending.filter (fun p => now ≤ p.2)⟩

/-- The multiplexer states reachable from the initial empty table through its
public operations. -/
inductive Reachable : MuxState → Prop
  | init : Reachable ⟨0, []⟩
  | register {s : MuxState} (d : ℚ) : Reachable s → Reachable (register s d).2
  | resolve {s : MuxState} (sync : Nat) : Reachable s → Reachable (resolve s sync)
  | cancel {s : MuxState} (sync : Nat) : Reachable s → Reachable (cancel s sync)
  | expire {s : MuxState} (now : ℚ) : Reachable s → Reachable (expire s now)

/-! ### Connection loss (spec §4.4, §7) -/

deriving instance DecidableEq for Except

/-- One delivered call outcome, keyed by the call's correlation id. -/
structure Delivered where
  sync : Nat
  outcome : Except ErrorKind TntResponse
deriving DecidableEq, Repr

/-- Connection-and-multiplexer view used for the connection-loss transition:
lifecycle state, pending correlation ids, and the outcomes already delivered
to callers. -/
structure ConnSys where
  state : ConnState
  pending : List (Nat × ℚ)
  delivered : List Delivered
deriving DecidableEq, Repr

/-- Modelled from the spec: on any I/O error or decode `ProtocolError` while
`Connected`, the transport is discarded, every currently pending request is
resolved with a `ConnectionLostError`, and the machine enters `Reconnecting`
(reconnect policy configured). -/
def on_connection_lost (s : ConnSys) : ConnSys :=
  { state := ConnState.reconnecting
    pending := []
    delivered :=
      s.delivered ++ s.pending.map (fun p => ⟨p.1, Except.error ErrorKind.connectionLost⟩) }

/-! ### Call completion (spec §7) -/

/-- Time at which a ping call completes: a call refused while not connected
fails immediately; otherwise it finishes when the response arrives or when its
effective deadline fires, whichever is earlier. -/
def ping_completion_time (env : PingEnv) (timeout : Option ℚ) : ℚ :=
  if env.state ≠ ConnState.connected then 0
  else
    match effective_timeout timeout env.request_timeout with
    | some t => min t env.response_time
    | none => env.response_time

/-! ### Schema Cache (spec §4.2)

Modelled from the spec: the schema cache implementation is absent from the
sources. -/

/-- Cached schema metadata: the cached schema version, the space name to id
map, and the staleness mark set by `observe`. -/
structure SchemaCache where
  version : Nat
  spaces : List (String × Nat)
  stale : Bool
deriving DecidableEq, Repr

/-- The server's system catalog as visible to a refresh. -/
structure ServerCatalog where
  version : Nat
  spaces : List (String × Nat)
deriving DecidableEq, Repr

/-- Modelled from the spec: `observe(schemaVersion)` is called on every
response; if the version is newer than the cached one the cache is marked
stale. -/
def observe (c : SchemaCache) (v : Nat) : SchemaCache :=
  if c.version < v then { c with stale := true } else c

/-- Modelled from the spec: a refresh replaces the whole cache atomically from
the server's system catalog and clears the staleness mark. -/
def refresh (_c : SchemaCache) (srv : ServerCatalog) : SchemaCache :=
  ⟨srv.version, srv.spaces, false⟩

/-- Modelled from the spec: `resolveSpace(name)` performs a synchronous
refresh first when the cache is stale; a miss in the current cache triggers
one refresh attempt before surfacing `UnknownSpaceError`. -/
def resolveSpace (c : SchemaCache) (srv : ServerCatalog) (name : String) :
    Except ErrorKind Nat × SchemaCache :=
  let c1 := if c.stale then refresh c srv else c
  match c1.spaces.lookup name with
  | some i => (Except.ok i, c1)
  | none =>
    let c2 := refresh c1 srv
    match c2.spaces.lookup name with
    | some i => (Except.ok i, c2)
    | none => (Except.error ErrorKind.unknownSpace, c2)

/-! ### Codec lemmas -/

theorem encode_le_length (w n : Nat) : (encode_le w n).length = w := by
  induction w generalizing n with
  | zero => rfl
  | succ w ih => simp [encode_le, ih]

theorem decode_le_encode_le {w n : Nat} (h : n < 256 ^ w) :
    decode_le (encode_le w n) = n := by
  induction w generalizing n with
  | zero =>
    have : n = 0 := Nat.lt_one_iff.mp (by simpa using h)
    simp [encode_le, decode_le, this]
  | succ w ih =>
    have hdiv : n / 256 < 256 ^ w := by
      rw [Nat.div_lt_iff_lt_mul (by norm_num)]
      calc n < 256 ^ (w + 1) := h
        _ = 256 ^ w * 256 := by ring
    simp [encode_le, decode_le, ih hdiv, Nat.mod_add_div]

theorem encodeHeader_length (h : Header) : (encodeHeader h).length = HEADER_SIZE := by
  simp [encodeHeader, encode_le_length, HEADER_SIZE]

/-- Claim C5: for every valid header and body, decoding the frame produced by
encoding them yields back exactly that header and body (with the whole frame
consumed): decode (encode header body) = ok header body consumed. -/
theorem decode_encode (h : Header) (body : List Nat)
    (hv : h.valid) (hb : HEADER_SIZE + body.length ≤ MAX_FRAME_LENGTH) :
    decode (encode h body) =
      DecodeResult.ok h body (encode h body).length := by
  obtain ⟨hs, hc, hsc⟩ := hv
  have hpow : (256 : Nat) ^ 8 = 2 ^ 64 := by norm_num
  have hs8 : h.sync < 256 ^ 8 := by rw [hpow]; exact hs
  have hc8 : h.code < 256 ^ 8 := by rw [hpow]; exact hc
  have hsc8 : h.schema_id < 256 ^ 8 := by rw [hpow]; exact hsc
  have hlenbuf : (encode h body).length = 4 + (HEADER_SIZE + body.length) := by
    simp [encode, encodeHeader, encode_le_length, HEADER_SIZE]
    omega
  have htake4 : (encode h body).take 4 = encode_le 4 (HEADER_SIZE + body.length) := by
    rw [encode, List.append_assoc]
    exact List.take_left' (encode_le_length 4 _)
  have hdec4 : decode_le ((encode h body).take 4) = HEADER_SIZE + body.length := by
    rw [htake4]
    exact decode_le_encode_le (lt_of_le_of_lt hb (by norm_num [MAX_FRAME_LENGTH]))
  have hdrop4 : (encode h body).drop 4 = encodeHeader h ++ body := by
    rw [encode, List.append_assoc]
    exact List.drop_left' (encode_le_length 4 _)
  have hhd : ((encode h body).drop 4).take HEADER_SIZE = encodeHeader h := by
    rw [hdrop4]
    exact List.take_left' (encodeHeader_length h)
  have hf1 : (encodeHeader h).take 8 = encode_le 8 h.sync := by
    rw [encodeHeader, List.append_assoc]
    exact List.take_left' (encode_le_length 8 _)
  have hf2 : (encodeHeader h).drop 8 = encode_le 8 h.code ++ encode_le 8 h.schema_id := by
    rw [encodeHeader, List.append_assoc]
    exact List.drop_left' (encode_le_length 8 _)
  have hf3 : ((encodeHeader h).drop 8).take 8 = encode_le 8 h.code := by
    rw [hf2]
    exact List.take_left' (encode_le_length 8 _)
  have hf4 : (encodeHeader h).drop 16 = encode_le 8 h.schema_id := by
    rw [encodeHeader]
    exact List.drop_left' (by simp [encode_le_length])
  have hbody : ((encode h body).drop (4 + HEADER_SIZE)).take
      (HEADER_SIZE + body.length - HEADER_SIZE) = body := by
    have hdp : (encode h body).drop (4 + HEADER_SIZE) = body := by
      rw [encode]
      refine List.drop_left' ?_
      simp [encode_le_length, encodeHeader_length, HEADER_SIZE]
    rw [hdp, Nat.add_sub_cancel_left, List.take_length]
  have c2 : ¬ (MAX_FRAME_LENGTH < HEADER_SIZE + body.length) := not_lt.mpr hb
  have c3 : ¬ (HEADER_SIZE + body.length < HEADER_SIZE) := by omega
  simp only [decode, hdec4, hhd, hf1, hf3, hf4, hbody, if_neg c2, if_neg c3,
    decode_le_encode_le hs8, decode_le_encode_le hc8, decode_le_encode_le hsc8,
    hlenbuf]
  rw [if_neg (by omega : ¬ (4 + (HEADER_SIZE + body.length) < 4)),
    if_neg (lt_irrefl (4 + (HEADER_SIZE + body.length)))]

/-- Witness for C5 at a concrete header and body. -/
theorem decode_encode_witness :
    (⟨5, 0, 3⟩ : Header).valid ∧
    HEADER_SIZE + ([1, 2, 3] : List Nat).length ≤ MAX_FRAME_LENGTH ∧
    decode (encode ⟨5, 0, 3⟩ [1, 2, 3]) =
      DecodeResult.ok ⟨5, 0, 3⟩ [1, 2, 3] (encode ⟨5, 0, 3⟩ [1, 2, 3]).length :=
  ⟨by decide, by decide, decode_encode ⟨5, 0, 3⟩ [1, 2, 3] (by decide) (by decide)⟩

/-! ### Ping scenarios -/

/-- Claim C2: calling ping() with no timeout on a healthy connection (connected,
and the connection default timeout, if any, does not fire before the response)
returns a Response whose correlation id is strictly positive, whose status code
is the ok code 0, and whose body is empty. -/
theorem ping_basic (env : PingEnv)
    (hst : env.state = ConnState.connected)
    (hto : times_out (effective_timeout none env.request_timeout) env.response_time = false) :
    ∃ r : TntResponse, ping env none = Except.ok r ∧
      0 < r.sync ∧ r.code = 0 ∧ r.body = none := by
  refine ⟨⟨env.last_sync + 1, 0, 0, none⟩, ?_, by simp, rfl, rfl⟩
  simp [ping, hst, hto]

/-- Witness for C2 on a concrete healthy connection. -/
theorem ping_basic_witness :
    (⟨ConnState.connected, none, mkRat 1 2, 0⟩ : PingEnv).state = ConnState.connected ∧
    times_out (effective_timeout none (⟨ConnState.connected, none, mkRat 1 2, 0⟩ : PingEnv).request_timeout)
      (⟨ConnState.connected, none, mkRat 1 2, 0⟩ : PingEnv).response_time = false ∧
    ∃ r : TntResponse, ping ⟨ConnState.connected, none, mkRat 1 2, 0⟩ none = Except.ok r ∧
      0 < r.sync ∧ r.code = 0 ∧ r.body = none :=
  ⟨rfl, rfl, ping_basic ⟨ConnState.connected, none, mkRat 1 2, 0⟩ rfl rfl⟩

/-- Claim C3: calling ping() with an explicit timeout smaller than the server's
response delay on a healthy connection fails with TimeoutError and with no
other error kind. -/
theorem ping_small_timeout (env : PingEnv) (t : ℚ)
    (hst : env.state = ConnState.connected)
    (hlt : t < env.response_time) :
    ping env (some t) = Except.error ErrorKind.timeout := by
  simp [ping, hst, times_out, effective_timeout, hlt]

/-- Witness for C3: a ping with the test's near-zero timeout against a server
answering in half a second times out. -/
theorem ping_small_timeout_witness :
    (⟨ConnState.connected, none, mkRat 1 2, 0⟩ : PingEnv).state = ConnState.connected ∧
    mkRat 1 100000000000 < (⟨ConnState.connected, none, mkRat 1 2, 0⟩ : PingEnv).response_time ∧
    ping ⟨ConnState.connected, none, mkRat 1 2, 0⟩ (some (mkRat 1 100000000000)) =
      Except.error ErrorKind.timeout :=
  ⟨rfl, by decide,
    ping_small_timeout ⟨ConnState.connected, none, mkRat 1 2, 0⟩ (mkRat 1 100000000000) rfl (by decide)⟩

/-- Claim C10: a ping issued while the transport is already gone (server down
before the request was ever sent) fails specifically with the not-connected
error kind, which is distinct from the connection-lost kind. -/
theorem ping_not_connected (env : PingEnv) (timeout : Option ℚ)
    (hst : env.state = ConnState.disconnected) :
    ping env timeout = Except.error ErrorKind.notConnected ∧
      ErrorKind.notConnected ≠ ErrorKind.connectionLost := by
  refine ⟨?_, by decide⟩
  simp [ping, hst]

/-- Witness for C10 on a concrete disconnected environment. -/
theorem ping_not_connected_witness :
    (⟨ConnState.disconnected, none, mkRat 1 2, 0⟩ : PingEnv).state = ConnState.disconnected ∧
    (ping ⟨ConnState.disconnected, none, mkRat 1 2, 0⟩ none = Except.error ErrorKind.notConnected ∧
      ErrorKind.notConnected ≠ ErrorKind.connectionLost) :=
  ⟨rfl, ping_not_connected ⟨ConnState.disconnected, none, mkRat 1 2, 0⟩ none rfl⟩

/-- Claim C4: a ping issued after the transport was force-closed (connection no
longer in the connected state) fails with ConnectionLostError or
NotConnectedError, and once reconnection completes (connected again, deadline
not firing) a subsequent ping succeeds. -/
theorem ping_lost_then_recovers (env env' : PingEnv) (t t' : Option ℚ)
    (h1 : env.state ≠ ConnState.connected)
    (h2 : env'.state = ConnState.connected)
    (h3 : times_out (effective_timeout t' env'.request_timeout) env'.response_time = false) :
    (ping env t = Except.error ErrorKind.connectionLost ∨
      ping env t = Except.error ErrorKind.notConnected) ∧
    ∃ r : TntResponse, ping env' t' = Except.ok r := by
  refine ⟨Or.inr ?_, ⟨env'.last_sync + 1, 0, 0, none⟩, ?_⟩
  · simp [ping, h1]
  · simp [ping, h2, h3]

/-- Witness for C4: server stopped, then restarted. -/
theorem ping_lost_then_recovers_witness :
    (⟨ConnState.reconnecting, none, mkRat 1 2, 0⟩ : PingEnv).state ≠ ConnState.connected ∧
    (⟨ConnState.connected, none, mkRat 1 2, 4⟩ : PingEnv).state = ConnState.connected ∧
    times_out (effective_timeout none none) (mkRat 1 2) = false ∧
    ((ping ⟨ConnState.reconnecting, none, mkRat 1 2, 0⟩ none = Except.error ErrorKind.connectionLost ∨
      ping ⟨ConnState.reconnecting, none, mkRat 1 2, 0⟩ none = Except.error ErrorKind.notConnected) ∧
    ∃ r : TntResponse, ping ⟨ConnState.connected, none, mkRat 1 2, 4⟩ none = Except.ok r) :=
  ⟨by decide, rfl, rfl,
    ping_lost_then_recovers ⟨ConnState.reconnecting, none, mkRat 1 2, 0⟩
      ⟨ConnState.connected, none, mkRat 1 2, 4⟩ none none (by decide) rfl rfl⟩

/-! ### Timeout policy (claim C1) -/

/-- Counterexample to claim C1: on a connection whose default request timeout
is the test's near-zero value, the effective timeout of a ping with an explicit
per-call timeout of 1 second is 1 second, not the min with the near-zero
default, and the ping succeeds instead of failing with TimeoutError
(`test__ping_timeout_on_conn` requires exactly this success). -/
theorem timeout_min_rule_refuted :
    effective_timeout (some 1) (some (mkRat 1 100000000000)) ≠
      effective_timeout_spec (some 1) (some (mkRat 1 100000000000)) ∧
    ping ⟨ConnState.connected, some (mkRat 1 100000000000), mkRat 1 2, 0⟩ (some 1) ≠
      Except.error ErrorKind.timeout := by
  constructor
  · intro hcontra
    have h1 : effective_timeout (some 1) (some (mkRat 1 100000000000)) = some 1 := rfl
    have h2 : effective_timeout_spec (some 1) (some (mkRat 1 100000000000)) =
        some (mkRat 1 100000000000) := by
      simp only [effective_timeout_spec, Option.some.injEq]
      exact min_eq_right (by decide : (mkRat 1 100000000000 : ℚ) ≤ 1)
    rw [h1, h2] at hcontra
    simp at hcontra
    exact absurd hcontra (by decide)
  · intro hcontra
    have : ping ⟨ConnState.connected, some (mkRat 1 100000000000), mkRat 1 2, 0⟩ (some 1) =
        Except.ok ⟨1, 0, 0, none⟩ := rfl
    rw [this] at hcontra
    exact Except.noConfusion hcontra

/-- Claim C1 as amended: the effective deadline is the explicit per-call
timeout when given, else the connection default when configured, else
infinite; in particular, on a connection whose default request timeout is near
zero (smaller than the server's response delay), a ping with no explicit
timeout fails with TimeoutError while a ping with an explicit per-call timeout
of 1 second has effective deadline 1 second and succeeds when the server
answers within it. -/
theorem timeout_explicit_overrides (env : PingEnv) (dflt : Option ℚ) (d : ℚ)
    (hst : env.state = ConnState.connected)
    (hd : env.request_timeout = some d)
    (hdr : d < env.response_time)
    (hr : env.response_time ≤ 1) :
    (∀ t : ℚ, effective_timeout (some t) dflt = some t) ∧
    effective_timeout none dflt = dflt ∧
    ping env none = Except.error ErrorKind.timeout ∧
    ∃ r : TntResponse, ping env (some 1) = Except.ok r := by
  refine ⟨fun t => rfl, rfl, ?_, ⟨env.last_sync + 1, 0, 0, none⟩, ?_⟩
  · simp [ping, hst, effective_timeout, times_out, hd, hdr]
  · have hnot : ¬ ((1 : ℚ) < env.response_time) := not_lt.mpr hr
    simp [ping, hst, effective_timeout, times_out, hnot]

/-- Witness for the amended C1 at the test's concrete values: near-zero
default, half-second server delay. -/
theorem timeout_explicit_overrides_witness :
    (⟨ConnState.connected, some (mkRat 1 100000000000), mkRat 1 2, 0⟩ : PingEnv).state =
      ConnState.connected ∧
    (⟨ConnState.connected, some (mkRat 1 100000000000), mkRat 1 2, 0⟩ : PingEnv).request_timeout =
      some (mkRat 1 100000000000) ∧
    mkRat 1 100000000000 <
      (⟨ConnState.connected, some (mkRat 1 100000000000), mkRat 1 2, 0⟩ : PingEnv).response_time ∧
    (⟨ConnState.connected, some (mkRat 1 100000000000), mkRat 1 2, 0⟩ : PingEnv).response_time ≤ 1 ∧
    ((∀ t : ℚ, effective_timeout (some t) none = some t) ∧
      effective_timeout none none = none ∧
      ping ⟨ConnState.connected, some (mkRat 1 100000000000), mkRat 1 2, 0⟩ none =
        Except.error ErrorKind.timeout ∧
      ∃ r : TntResponse,
        ping ⟨ConnState.connected, some (mkRat 1 100000000000), mkRat 1 2, 0⟩ (some 1) =
          Except.ok r) :=
  ⟨rfl, rfl, by decide, by decide,
    timeout_explicit_overrides ⟨ConnState.connected, some (mkRat 1 100000000000), mkRat 1 2, 0⟩
      none (mkRat 1 100000000000) rfl rfl (by decide) (by decide)⟩

/-! ### Call outcome exclusivity and deadline (claim C8) -/

/-- Claim C8: every ping call resolves with a value or fails with exactly one
error kind, never both, and its completion time never exceeds a finite
effective deadline (deadlines being nonnegative durations). -/
theorem call_outcome_exclusive_and_bounded (env : PingEnv) (t : Option ℚ) :
    ((∃ r : TntResponse, ping env t = Except.ok r) ∨
      (∃ e : ErrorKind, ping env t = Except.error e)) ∧
    ¬ ((∃ r : TntResponse, ping env t = Except.ok r) ∧
      (∃ e : ErrorKind, ping env t = Except.error e)) ∧
    (∀ d : ℚ, effective_timeout t env.request_timeout = some d → 0 ≤ d →
      ping_completion_time env t ≤ d) := by
  refine ⟨?_, ?_, ?_⟩
  · cases hp : ping env t with
    | ok r => exact Or.inl ⟨r, rfl⟩
    | error e => exact Or.inr ⟨e, rfl⟩
  · rintro ⟨⟨r, hr⟩, ⟨e, he⟩⟩
    rw [hr] at he
    exact Except.noConfusion he
  · intro d hd hd0
    unfold ping_completion_time
    split
    · exact hd0
    · rw [hd]
      exact min_le_left d env.response_time

/-- Witness for C8 on a concrete call with a finite deadline. -/
theorem call_outcome_exclusive_witness :
    ((∃ r : TntResponse, ping ⟨ConnState.connected, none, mkRat 1 2, 0⟩ (some 1) = Except.ok r) ∨
      (∃ e : ErrorKind, ping ⟨ConnState.connected, none, mkRat 1 2, 0⟩ (some 1) = Except.error e)) ∧
    ping_completion_time ⟨ConnState.connected, none, mkRat 1 2, 0⟩ (some 1) ≤ 1 :=
  ⟨(call_outcome_exclusive_and_bounded ⟨ConnState.connected, none, mkRat 1 2, 0⟩ (some 1)).1,
    (call_outcome_exclusive_and_bounded ⟨ConnState.connected, none, mkRat 1 2, 0⟩ (some 1)).2.2
      1 rfl (by decide)⟩

/-! ### Schema invalidation (claim C9) -/

/-- Claim C9: after the cache observes a response bearing a schema version
newer than the cached one, the next resolution refreshes synchronously before
answering: its answer is determined by the server catalog (not the stale
cache) and the cache it leaves behind carries the server's version. -/
theorem schema_observe_forces_refresh (c : SchemaCache) (srv : ServerCatalog)
    (v : Nat) (name : String)
    (hv : c.version < v) :
    (observe c v).stale = true ∧
    (resolveSpace (observe c v) srv name).2.version = srv.version ∧
    (resolveSpace (observe c v) srv name).1 =
      (match srv.spaces.lookup name with
        | some i => Except.ok i
        | none => Except.error ErrorKind.unknownSpace) := by
  have hobs : observe c v = { c with stale := true } := by
    simp [observe, hv]
  refine ⟨by rw [hobs], ?_, ?_⟩ <;>
    · rw [hobs]
      simp only [resolveSpace, refresh]
      cases hl : srv.spaces.lookup name <;> simp [hl]

/-- Witness for C9: a stale-making observation forces the answer to come from
the refreshed catalog. -/
theorem schema_observe_forces_refresh_witness :
    (⟨1, [("users", 512)], false⟩ : SchemaCache).version < 2 ∧
    ((observe ⟨1, [("users", 512)], false⟩ 2).stale = true ∧
      (resolveSpace (observe ⟨1, [("users", 512)], false⟩ 2) ⟨2, [("users", 513)]⟩ "users").2.version =
        (⟨2, [("users", 513)]⟩ : ServerCatalog).version ∧
      (resolveSpace (observe ⟨1, [("users", 512)], false⟩ 2) ⟨2, [("users", 513)]⟩ "users").1 =
        (match (⟨2, [("users", 513)]⟩ : ServerCatalog).spaces.lookup "users" with
          | some i => Except.ok i
          | none => Except.error ErrorKind.unknownSpace)) :=
  ⟨by decide,
    schema_observe_forces_refresh ⟨1, [("users", 512)], false⟩ ⟨2, [("users", 513)]⟩ 2 "users"
      (by decide)⟩

/-! ### Connection loss resolves all pending (claim C7) -/

/-- Claim C7: on an I/O error or decode ProtocolError while Connected, the
machine enters Reconnecting, no pending request is left unresolved (the
pending table empties and every previously pending id has a
ConnectionLostError outcome delivered), and once the machine is Connected
again a subsequent call succeeds. -/
theorem connection_lost_resolves_all (s : ConnSys) (env' : PingEnv) (t' : Option ℚ)
    (_hst : s.state = ConnState.connected)
    (h2 : env'.state = ConnState.connected)
    (h3 : times_out (effective_timeout t' env'.request_timeout) env'.response_time = false) :
    (on_connection_lost s).state = ConnState.reconnecting ∧
    (on_connection_lost s).pending = [] ∧
    (∀ p ∈ s.pending,
      (⟨p.1, Except.error ErrorKind.connectionLost⟩ : Delivered) ∈
        (on_connection_lost s).delivered) ∧
    ∃ r : TntResponse, ping env' t' = Except.ok r := by
  refine ⟨rfl, rfl, ?_, ⟨env'.last_sync + 1, 0, 0, none⟩, by simp [ping, h2, h3]⟩
  intro p hp
  simp only [on_connection_lost, List.mem_append, List.mem_map]
  exact Or.inr ⟨p, hp, rfl⟩

/-- Witness for C7: two pending requests on a live connection, then a
transport failure, then a healthy reconnected environment. -/
theorem connection_lost_resolves_all_witness :
    (⟨ConnState.connected, [(1, 5), (2, 5)], []⟩ : ConnSys).state = ConnState.connected ∧
    (⟨ConnState.connected, none, mkRat 1 2, 2⟩ : PingEnv).state = ConnState.connected ∧
    times_out (effective_timeout none none) (mkRat 1 2) = false ∧
    ((on_connection_lost ⟨ConnState.connected, [(1, 5), (2, 5)], []⟩).state = ConnState.reconnecting ∧
      (on_connection_lost ⟨ConnState.connected, [(1, 5), (2, 5)], []⟩).pending = [] ∧
      (∀ p ∈ (⟨ConnState.connected, [(1, 5), (2, 5)], []⟩ : ConnSys).pending,
        (⟨p.1, Except.error ErrorKind.connectionLost⟩ : Delivered) ∈
          (on_connection_lost ⟨ConnState.connected, [(1, 5), (2, 5)], []⟩).delivered) ∧
      ∃ r : TntResponse, ping ⟨ConnState.connected, none, mkRat 1 2, 2⟩ none = Except.ok r) :=
  ⟨rfl, rfl, rfl,
    connection_lost_resolves_all ⟨ConnState.connected, [(1, 5), (2, 5)], []⟩
      ⟨ConnState.connected, none, mkRat 1 2, 2⟩ none rfl rfl rfl⟩

/-! ### Multiplexer id uniqueness (claim C6) -/

/-- Invariant of reachable multiplexer states: pending correlation ids are
pairwise distinct and never exceed the allocation counter. -/
theorem reachable_pending_invariant {s : MuxState} (h : Reachable s) :
    (s.pending.map Prod.fst).Nodup ∧ ∀ p ∈ s.pending, p.1 ≤ s.counter := by
  induction h with
  | init => simp
  | register d _ ih =>
    obtain ⟨hnd, hle⟩ := ih
    constructor
    · simp only [register, List.map_cons, List.nodup_cons]
      refine ⟨?_, hnd⟩
      intro hmem
      obtain ⟨p, hp, hfst⟩ := List.mem_map.mp hmem
      have := hle p hp
      omega
    · intro p hp
      simp only [register, List.mem_cons] at hp
      rcases hp with h1 | h1
      · rw [h1]; simp [register]
      · exact Nat.le_succ_of_le (hle p h1)
  | resolve sync _ ih =>
    obtain ⟨hnd, hle⟩ := ih
    exact ⟨List.Nodup.sublist (List.Sublist.map Prod.fst (List.filter_sublist _)) hnd,
      fun p hp => hle p (List.mem_of_mem_filter hp)⟩
  | cancel sync _ ih =>
    obtain ⟨hnd, hle⟩ := ih
    exact ⟨List.Nodup.sublist (List.Sublist.map Prod.fst (List.filter_sublist _)) hnd,
      fun p hp => hle p (List.mem_of_mem_filter hp)⟩
  | expire now _ ih =>
    obtain ⟨hnd, hle⟩ := ih
    exact ⟨List.Nodup.sublist (List.Sublist.map Prod.fst (List.filter_sublist _)) hnd,
      fun p hp => hle p (List.mem_of_mem_filter hp)⟩

/-- Claim C6: at every reachable multiplexer state, the correlation ids of the
concurrently pending requests are pairwise distinct, and a fresh allocation
never reissues a still-pending id (an id becomes reusable only once its
request has been resolved, cancelled or expired out of the table). -/
theorem correlation_ids_distinct (s : MuxState) (d : ℚ) (h : Reachable s) :
    (s.pending.map Prod.fst).Nodup ∧
    ∀ p ∈ s.pending, p.1 ≠ (register s d).1 := by
  obtain ⟨hnd, hle⟩ := reachable_pending_invariant h
  refine ⟨hnd, fun p hp => ?_⟩
  have := hle p hp
  simp only [register]
  omega

/-- Witness for C6 at a concrete reachable state with two pending requests. -/
theorem correlation_ids_distinct_witness :
    Reachable (register (register ⟨0, []⟩ 1).2 2).2 ∧
    (((register (register ⟨0, []⟩ 1).2 2).2.pending.map Prod.fst).Nodup ∧
      ∀ p ∈ (register (register ⟨0, []⟩ 1).2 2).2.pending,
        p.1 ≠ (register (register (register ⟨0, []⟩ 1).2 2).2 3).1) :=
  have hr : Reachable (register (register ⟨0, []⟩ 1).2 2).2 :=
    Reachable.register 2 (Reachable.register 1 Reachable.init)
  ⟨hr, correlation_ids_distinct (register (register ⟨0, []⟩ 1).2 2).2 3 hr⟩

end Asynctnt
